import Mathlib

/-!
Verification development for the DeepRacer reward functions in
`carthing.py` (additive variant, reward_max = 5.0) and `carthing2.py`
(weighted variant, reward_max = 10.0).

Python floats are modelled as real numbers (exact arithmetic); Python's
`ZeroDivisionError` is modelled by an `Option` result, and `KeyError`
on dictionary access by an `Except` result.  Definitions carry the names
of the source functions; the carthing2 versions carry a `2` suffix since
both files use the same names.
-/

set_option maxHeartbeats 1000000

noncomputable section

namespace DeepRacer

/-- Telemetry record: the fields of the `params` mapping that the two
reward functions read.  `is_offtrack` is only read by carthing2. -/
structure Params where
  x : ℝ
  y : ℝ
  heading : ℝ
  steering_angle : ℝ
  speed : ℝ
  track_width : ℝ
  progress : ℝ
  is_offtrack : Bool

/-- carthing.py line 4: `reward_max = 5.0`. -/
def reward_max : ℝ := 5.0

/-- carthing.py line 5: `reward_min = 0.001`. -/
def reward_min : ℝ := 0.001

/-- carthing2.py line 4: `reward_max = 10.0`. -/
def reward_max2 : ℝ := 10.0

/-- carthing2.py line 5: `reward_min = 0.001`. -/
def reward_min2 : ℝ := 0.001

/-- carthing.py `get_distance` (lines 46-50) and carthing2.py `get_distance`
(lines 78-82): Euclidean distance between two 2D points.  carthing.py writes
the squares as `a*a`, carthing2.py as `a ** 2`; both denote the same value. -/
def get_distance (coor1 coor2 : ℝ × ℝ) : ℝ :=
  Real.sqrt ((coor1.1 - coor2.1) * (coor1.1 - coor2.1)
    + (coor1.2 - coor2.2) * (coor1.2 - coor2.2))

/-- Python's float modulo `a % b`: `a - b * floor (a / b)` (sign of the
divisor; the sources only use it with the positive divisor `2 * pi`). -/
def pymod (a b : ℝ) : ℝ := a - b * ⌊a / b⌋

/-- Python `math.degrees`: radians to degrees, `x * 180 / pi`. -/
def degrees (x : ℝ) : ℝ := x * 180 / Real.pi

/-- Python `math.radians`: degrees to radians, `x * pi / 180`. -/
def radians (x : ℝ) : ℝ := x * Real.pi / 180

/-- Python `math.atan2 y x`: the angle of the point `(x, y)` in `(-pi, pi]`,
written out by the usual quadrant case split (signed zeros are not
modelled). -/
def atan2 (y x : ℝ) : ℝ :=
  if 0 < x then Real.arctan (y / x)
  else if x < 0 then
    (if 0 ≤ y then Real.arctan (y / x) + Real.pi else Real.arctan (y / x) - Real.pi)
  else
    (if 0 < y then Real.pi / 2 else if y < 0 then -(Real.pi / 2) else 0)

/-- carthing.py `get_difference_degrees` (lines 54-59), identical in
carthing2.py (lines 85-92): reduce `angle1 - angle2` modulo `2 * pi`,
shift the result from `[pi, 2*pi)` down by `2 * pi`, convert to degrees. -/
def get_difference_degrees (angle1 angle2 : ℝ) : ℝ :=
  let diff := pymod (angle1 - angle2) (2.0 * Real.pi)
  let diff2 := if diff ≥ Real.pi then diff - 2.0 * Real.pi else diff
  degrees diff2

/-- Loop body of `get_distance_list` (carthing.py lines 62-74, carthing2.py
lines 95-114): running minimum distance (initially `float("inf")`, modelled
as `⊤ : WithTop ℝ`) and its index (initially `-1`), updated on strict
improvement; the distances are accumulated in order.  carthing.py appends
after the `if`, carthing2.py before it; the result is the same. -/
def gdl_loop (car : ℝ × ℝ) :
    List (ℝ × ℝ) → ℕ → WithTop ℝ → ℤ → List ℝ × WithTop ℝ × ℤ
  | [], _, min_dist, min_idx => ([], min_dist, min_idx)
  | w :: ws, i, min_dist, min_idx =>
    let dist := get_distance car w
    let r :=
      if (dist : WithTop ℝ) < min_dist
      then gdl_loop car ws (i + 1) (dist : WithTop ℝ) (i : ℤ)
      else gdl_loop car ws (i + 1) min_dist min_idx
    (dist :: r.1, r.2)

/-- carthing.py `get_distance_list` (lines 62-74), identical in carthing2.py:
returns the list of distances from `car` to each waypoint, the minimum
distance, the index of the closest waypoint and the number of waypoints. -/
def get_distance_list (car : ℝ × ℝ) (waypoints : List (ℝ × ℝ)) :
    List ℝ × WithTop ℝ × ℤ × ℕ :=
  let r := gdl_loop car waypoints 0 ⊤ (-1)
  (r.1, r.2.1, r.2.2, waypoints.length)

/-- Python `int(length * 0.1)` for a natural `length`: `0.1` is exactly
`1/10` in the real-number model, and the product is nonnegative, so `int`
truncation is the floor. -/
def intFloorTenth (length : ℕ) : ℕ := (⌊(length : ℝ) * 0.1⌋).toNat

/-- Python `range(5, int(length * 0.1))` (carthing.py line 88, carthing2.py
line 134): the offsets scanned by `draw_ray`, empty when
`int(length * 0.1) <= 5`. -/
def sight_window (length : ℕ) : List ℕ :=
  List.range' 5 (intFloorTenth length - 5)

/-- Loop of `draw_ray` (carthing.py lines 88-92, carthing2.py lines 134-138):
for each offset `i`, set `target_idx` to `(min_idx + i) % length` and break
as soon as the scanned waypoint's distance reaches `target_dist`.  The
second argument is the current `target_idx`, only returned when the list of
offsets is exhausted (or empty). -/
def draw_ray_loop (dist_list : List ℝ) (length : ℕ) (min_idx : ℤ)
    (target_dist : ℝ) : List ℕ → ℤ → ℤ
  | [], target_idx => target_idx
  | i :: rest, _ =>
    if target_dist ≤ dist_list.getD ((min_idx + (i : ℤ)) % (length : ℤ)).toNat 0
    then (min_idx + (i : ℤ)) % (length : ℤ)
    else draw_ray_loop dist_list length min_idx target_dist rest
      ((min_idx + (i : ℤ)) % (length : ℤ))

/-- carthing.py `draw_ray` (lines 79-94), identical in carthing2.py
(lines 120-140): starting from the nearest waypoint, look ahead through the
`sight_window` offsets for the first waypoint at distance at least
`track_width * sight` from the car. -/
def draw_ray (params : Params) (waypoints : List (ℝ × ℝ)) (sight : ℝ) :
    ℤ × ℤ :=
  let car := (params.x, params.y)
  let target_dist := params.track_width * sight
  let r := get_distance_list car waypoints
  let dist_list := r.1
  let min_idx := r.2.2.1
  let length := r.2.2.2
  (draw_ray_loop dist_list length min_idx target_dist (sight_window length)
    min_idx, min_idx)


/-- carthing.py lines 100-108 of `score_steering`, factored out: the bearing
from the car to the target waypoint minus the heading (converted to
radians), as degrees, clipped to `[-30, 30]`.  The waypoint is an
`(x, y, target_speed)` triple; only `target[0]`, `target[1]` are read. -/
def target_steering (params : Params) (target : ℝ × ℝ × ℝ) : ℝ :=
  let target_angle := atan2 (target.2.1 - params.y) (target.1 - params.x)
  let ts := get_difference_degrees target_angle (radians params.heading)
  max (-30) (min 30 ts)

/-- carthing.py `score_steering` (lines 97-119): `1.001 - diff / 30` with a
severe-punishment branch for `diff > 30`, clamped into
`[reward_min, reward_max]`. -/
def score_steering (params : Params) (target : ℝ × ℝ × ℝ) : ℝ :=
  let diff := |params.steering_angle - target_steering params target|
  let score := if diff > 30 then 0.001 else 1.001 - diff / 30
  max (min score reward_max) reward_min

/-- carthing.py `score_speed` (lines 122-130): linear penalty on the absolute
deviation of `speed` from the target waypoint's stored speed `target[2]`. -/
def score_speed (params : Params) (target : ℝ × ℝ × ℝ) : ℝ :=
  let diff := |params.speed - target.2.2|
  let score := 1.001 - diff / 3
  max (min score reward_max) reward_min

/-- carthing.py `score_speed_steering` (lines 133-154): speed/steering
interaction heuristic with high-, low- and mid-speed branches. -/
def score_speed_steering (params : Params) : ℝ :=
  let speed := params.speed
  let steering_angle := |params.steering_angle|
  let max_speed : ℝ := 4.0
  let max_steering : ℝ := 30.0
  let normalized_speed := speed / max_speed
  let normalized_steering := steering_angle / max_steering
  let reward :=
    if speed ≥ 2.5 then 1.0 - normalized_steering * normalized_speed
    else if speed ≤ 1.5 then 1.0 + normalized_steering * (1.0 - normalized_speed)
    else 1.0 - normalized_steering / 2.0
  max reward_min (min reward reward_max)

/-- carthing.py `score_center` (lines 158-169):
`1.001 - |track_width - dist| / track_width` clamped.  The division is not
guarded: for `track_width = 0` Python raises `ZeroDivisionError`, modelled
as `none`. -/
def score_center (params : Params) (target : ℝ × ℝ × ℝ) : Option ℝ :=
  let dist := get_distance (params.x, params.y) (target.1, target.2.1)
  if params.track_width = 0 then none
  else some (max (min (1.001 - |params.track_width - dist| / params.track_width)
    reward_max) reward_min)

/-- carthing.py `score_progress` (lines 172-182): rewards the progress delta
`(progress - last_progress) * reward_max`, floored at `reward_min`, and sets
the carried module state `last_progress` to the current progress.  The
mutable global is modelled by explicit state passing: the second component
is the new `last_progress`. -/
def score_progress (last_progress : ℝ) (params : Params) : ℝ × ℝ :=
  (max ((params.progress - last_progress) * reward_max) reward_min,
    params.progress)

/-- Projection of a carthing.py waypoint onto the coordinates read by
`get_distance` (`waypoint[0]`, `waypoint[1]`). -/
def wp_xy (w : ℝ × ℝ × ℝ) : ℝ × ℝ := (w.1, w.2.1)


/-- carthing.py `get_racing_track` (lines 185-306): 120 waypoints, each
an `(x, y, target_speed)` triple. -/
def get_racing_track : List (ℝ × ℝ × ℝ) := [
  (1.17885, -0.02819, 4),
  (0.97428, 0.19281, 4),
  (0.77039, 0.41465, 4),
  (0.56694, 0.63702, 4),
  (0.36371, 0.85965, 3.5),
  (0.16067, 1.08251, 3.5),
  (-0.04223, 1.30555, 3.5),
  (-0.24496, 1.5288, 3),
  (-0.4475, 1.75228, 3),
  (-0.64984, 1.97599, 3),
  (-0.85192, 2.20003, 2.5),
  (-1.05344, 2.42472, 2.5),
  (-1.25411, 2.6504, 2.22318),
  (-1.45594, 2.87373, 1.987),
  (-1.66165, 3.09018, 1.80388),
  (-1.87335, 3.29467, 1.5668),
  (-2.09255, 3.48153, 1.3907),
  (-2.31965, 3.64525, 1.23406),
  (-2.55394, 3.78055, 1.09776),
  (-2.79366, 3.8824, 1.09776),
  (-3.03592, 3.94668, 1.09776),
  (-3.27641, 3.96537, 1.09776),
  (-3.50797, 3.93144, 1.0977),
  (-3.71896, 3.83638, 1.0977),
  (-3.88698, 3.67145, 1.21977),
  (-4.0029, 3.46131, 1.35655),
  (-4.06619, 3.23045, 1.47171),
  (-4.08237, 2.99662, 1.61364),
  (-4.06132, 2.76898, 1.74679),
  (-4.01102, 2.55088, 1.89145),
  (-3.93766, 2.34296, 1.55965),
  (-3.84538, 2.14508, 1.26288),
  (-3.73745, 1.95666, 1.26288),
  (-3.61589, 1.77732, 1.26288),
  (-3.46559, 1.58986, 1.26288),
  (-3.3348, 1.39364, 1.26288),
  (-3.24176, 1.18168, 1.2628),
  (-3.20714, 0.94929, 1.45877),
  (-3.22122, 0.70365, 1.73181),
  (-3.27557, 0.44914, 2.10352),
  (-3.36195, 0.1884, 2.5),
  (-3.47031, -0.07663, 2.5),
  (-3.59276, -0.35194, 2.5),
  (-3.70757, -0.6305, 2.45447),
  (-3.81255, -0.91281, 2.26315),
  (-3.90467, -1.19896, 2.10558),
  (-3.98055, -1.48823, 1.95433),
  (-4.03675, -1.77896, 1.8058),
  (-4.07006, -2.06871, 1.61297),
  (-4.07796, -2.35438, 1.42626),
  (-4.05785, -2.63218, 1.27572),
  (-4.00829, -2.89786, 1.1279),
  (-3.92841, -3.14667, 1.0),
  (-3.81797, -3.37333, 1.0),
  (-3.67586, -3.56992, 1.0),
  (-3.50254, -3.72585, 1.0),
  (-3.30246, -3.82919, 1.0),
  (-3.0846, -3.8639, 1.0),
  (-2.86921, -3.80985, 1.1893),
  (-2.67215, -3.69283, 1.31765),
  (-2.50144, -3.5234, 1.47389),
  (-2.36194, -3.31176, 1.65465),
  (-2.25566, -3.0676, 1.76875),
  (-2.18244, -2.79938, 1.61197),
  (-2.14008, -2.51429, 1.4814),
  (-2.127, -2.22076, 1.30142),
  (-2.08005, -1.94006, 1.17403),
  (-1.99865, -1.67826, 1.0412),
  (-1.88265, -1.44243, 1.0412),
  (-1.73341, -1.24052, 1.04125),
  (-1.55471, -1.08023, 1.04125),
  (-1.35065, -0.97424, 1.04125),
  (-1.13142, -0.93427, 1.04125),
  (-0.91566, -0.97615, 1.16222),
  (-0.71978, -1.08038, 1.27537),
  (-0.55152, -1.2341, 1.38928),
  (-0.41548, -1.42792, 1.52292),
  (-0.31396, -1.65377, 1.69263),
  (-0.2468, -1.90419, 1.5618),
  (-0.21119, -2.17228, 1.2590),
  (-0.2013, -2.45172, 1.05429),
  (-0.21099, -2.73807, 1.05429),
  (-0.23212, -3.0039, 1.05429),
  (-0.22807, -3.25729, 1.05429),
  (-0.18217, -3.48688, 1.05429),
  (-0.08656, -3.68183, 1.05429),
  (0.06315, -3.82604, 1.07185),
  (0.25374, -3.91471, 1.19),
  (0.47108, -3.94962, 1.3079),
  (0.70518, -3.9303, 1.44545),
  (0.9466, -3.85721, 1.5091),
  (1.18401, -3.72675, 1.5792),
  (1.43537, -3.64681, 1.54486),
  (1.6916, -3.61315, 1.47565),
  (1.9489, -3.62299, 1.37028),
  (2.20403, -3.67601, 1.2804),
  (2.45328, -3.77354, 1.202),
  (2.69005, -3.92338, 1.02595),
  (2.94411, -4.01746, 1.02595),
  (3.19298, -4.05176, 1.02595),
  (3.42603, -4.0289, 1.02595),
  (3.63458, -3.95263, 1.02595),
  (3.81, -3.82567, 1.02595),
  (3.92786, -3.64044, 1.13441),
  (3.98445, -3.41809, 1.27721),
  (3.98138, -3.17723, 1.41599),
  (3.92288, -2.9333, 1.576),
  (3.81718, -2.69741, 1.76607),
  (3.67368, -2.47517, 2.00827),
  (3.50131, -2.26778, 2.37831),
  (3.30856, -2.07314, 3),
  (3.10167, -1.88845, 3),
  (2.88408, -1.71115, 3.5),
  (2.65936, -1.51577, 3.5),
  (2.43924, -1.31391, 4),
  (2.22303, -1.10716, 4),
  (2.01001, -0.89649, 4),
  (1.79956, -0.68266, 4),
  (1.59116, -0.46633, 4),
  (1.38438, -0.24802, 4)]

/-- carthing2.py `get_racing_track` (lines 235-362): 121 `(x, y)` waypoint
pairs (the first point is repeated at the end). -/
def get_racing_track2 : List (ℝ × ℝ) := [
  (1.17885, -0.02819),
  (0.97428, 0.19281),
  (0.77039, 0.41465),
  (0.56694, 0.63702),
  (0.36371, 0.85965),
  (0.16067, 1.08251),
  (-0.04223, 1.30555),
  (-0.24496, 1.5288),
  (-0.4475, 1.75228),
  (-0.64984, 1.97599),
  (-0.85192, 2.20003),
  (-1.05344, 2.42472),
  (-1.25411, 2.6504),
  (-1.45594, 2.87373),
  (-1.66165, 3.09018),
  (-1.87335, 3.29467),
  (-2.09255, 3.48153),
  (-2.31965, 3.64525),
  (-2.55394, 3.78055),
  (-2.79366, 3.8824),
  (-3.03592, 3.94668),
  (-3.27641, 3.96537),
  (-3.50797, 3.93144),
  (-3.71896, 3.83638),
  (-3.88698, 3.67145),
  (-4.0029, 3.46131),
  (-4.06619, 3.23045),
  (-4.08237, 2.99662),
  (-4.06132, 2.76898),
  (-4.01102, 2.55088),
  (-3.93766, 2.34296),
  (-3.84538, 2.14508),
  (-3.73745, 1.95666),
  (-3.61589, 1.77732),
  (-3.46559, 1.58986),
  (-3.3348, 1.39364),
  (-3.24176, 1.18168),
  (-3.20714, 0.94929),
  (-3.22122, 0.70365),
  (-3.27557, 0.44914),
  (-3.36195, 0.1884),
  (-3.47031, -0.07663),
  (-3.59276, -0.35194),
  (-3.70757, -0.6305),
  (-3.81255, -0.91281),
  (-3.90467, -1.19896),
  (-3.98055, -1.48823),
  (-4.03675, -1.77896),
  (-4.07006, -2.06871),
  (-4.07796, -2.35438),
  (-4.05785, -2.63218),
  (-4.00829, -2.89786),
  (-3.92841, -3.14667),
  (-3.81797, -3.37333),
  (-3.67586, -3.56992),
  (-3.50254, -3.72585),
  (-3.30246, -3.82919),
  (-3.0846, -3.8639),
  (-2.86921, -3.80985),
  (-2.67215, -3.69283),
  (-2.50144, -3.5234),
  (-2.36194, -3.31176),
  (-2.25566, -3.0676),
  (-2.18244, -2.79938),
  (-2.14008, -2.51429),
  (-2.127, -2.22076),
  (-2.08005, -1.94006),
  (-1.99865, -1.67826),
  (-1.88265, -1.44243),
  (-1.73341, -1.24052),
  (-1.55471, -1.08023),
  (-1.35065, -0.97424),
  (-1.13142, -0.93427),
  (-0.91566, -0.97615),
  (-0.71978, -1.08038),
  (-0.55152, -1.2341),
  (-0.41548, -1.42792),
  (-0.31396, -1.65377),
  (-0.2468, -1.90419),
  (-0.21119, -2.17228),
  (-0.2013, -2.45172),
  (-0.21099, -2.73807),
  (-0.23212, -3.0039),
  (-0.22807, -3.25729),
  (-0.18217, -3.48688),
  (-0.08656, -3.68183),
  (0.06315, -3.82604),
  (0.25374, -3.91471),
  (0.47108, -3.94962),
  (0.70518, -3.9303),
  (0.9466, -3.85721),
  (1.18401, -3.72675),
  (1.43537, -3.64681),
  (1.6916, -3.61315),
  (1.9489, -3.62299),
  (2.20403, -3.67601),
  (2.45328, -3.77354),
  (2.69005, -3.92338),
  (2.94411, -4.01746),
  (3.19298, -4.05176),
  (3.42603, -4.0289),
  (3.63458, -3.95263),
  (3.81, -3.82567),
  (3.92786, -3.64044),
  (3.98445, -3.41809),
  (3.98138, -3.17723),
  (3.92288, -2.9333),
  (3.81718, -2.69741),
  (3.67368, -2.47517),
  (3.50131, -2.26778),
  (3.30856, -2.07314),
  (3.10167, -1.88845),
  (2.88408, -1.71115),
  (2.65936, -1.51577),
  (2.43924, -1.31391),
  (2.22303, -1.10716),
  (2.01001, -0.89649),
  (1.79956, -0.68266),
  (1.59116, -0.46633),
  (1.38438, -0.24802),
  (1.17885, -0.02819)]

/-- carthing.py `reward_function` (lines 10-42): sight choice from the fixed
diagonal line, ray cast, then the unweighted sum of the five sub-scores.
`last_progress` is the carried module state; the result pairs the returned
reward with the updated state.  `score_center`'s possible division by zero
propagates as `none` (in the source the exception aborts the call before
`last_progress` is updated). -/
def reward_function (last_progress : ℝ) (params : Params) :
    Option (ℝ × ℝ) :=
  let line_y0 : ℝ := -7
  let line_x0 : ℝ := 7
  let m := ((6 : ℝ) - (-7)) / ((-6 : ℝ) - 7)
  let line_y_at_car_x := m * params.x + line_y0 - m * line_x0
  let sight : ℝ := if params.y < line_y_at_car_x then 0.25 else 0.5
  let racing_track := get_racing_track
  let idxs := draw_ray params (racing_track.map wp_xy) sight
  let s1 := score_steering params (racing_track.getD idxs.1.toNat (0, 0, 0))
  let s2 := score_speed params (racing_track.getD idxs.2.toNat (0, 0, 0))
  match score_center params (racing_track.getD idxs.2.toNat (0, 0, 0)) with
  | none => none
  | some s3 =>
    let s4 := score_progress last_progress params
    let s5 := score_speed_steering params
    some (0.0 + s1 + s2 + s3 + s4.1 + s5, s4.2)

/-- carthing2.py lines 150-165 of `score_steering`, factored out: same
construction as carthing.py's `target_steering` but over `(x, y)` waypoint
pairs. -/
def target_steering2 (params : Params) (target_wp : ℝ × ℝ) : ℝ :=
  let target_angle := atan2 (target_wp.2 - params.y) (target_wp.1 - params.x)
  let ts := get_difference_degrees target_angle (radians params.heading)
  max (-30) (min 30 ts)

/-- carthing2.py `score_steering` (lines 146-175): `1.1 - diff / 30`, scaled
by `reward_max`, clamped into `[reward_min, reward_max]`. -/
def score_steering2 (params : Params) (target_wp : ℝ × ℝ) : ℝ :=
  let diff := |params.steering_angle - target_steering2 params target_wp|
  let score := (1.1 - diff / 30.0) * reward_max2
  max (min score reward_max2) reward_min2

/-- carthing2.py `score_speed` (lines 181-194): absolute-speed heuristic
`0.1 + (speed - 1) / 3`, scaled by `reward_max`, clamped. -/
def score_speed2 (params : Params) : ℝ :=
  let score := (0.1 + (params.speed - 1.0) / 3.0) * reward_max2
  max (min score reward_max2) reward_min2

/-- carthing2.py `score_center` (lines 200-213): `reward_max - dist`,
clamped; no division. -/
def score_center2 (params : Params) (closest_wp : ℝ × ℝ) : ℝ :=
  let dist_to_line := get_distance (params.x, params.y) closest_wp
  max (min (reward_max2 - dist_to_line) reward_max2) reward_min2

/-- carthing2.py `score_progress` (lines 219-229): stateless absolute
variant, `(progress / 100) * reward_max`, clamped. -/
def score_progress2 (params : Params) : ℝ :=
  let score := (params.progress / 100.0) * reward_max2
  max (min score reward_max2) reward_min2

/-- carthing2.py `reward_function` (lines 10-72): off-track short circuit,
sight choice, ray cast, weighted sum of four sub-scores, final clamp. -/
def reward_function2 (params : Params) : ℝ :=
  if params.is_offtrack then 1e-3
  else
    let line_y0 : ℝ := -7
    let line_x0 : ℝ := 7
    let m := ((6 : ℝ) - (-7)) / ((-6 : ℝ) - 7)
    let line_y_at_car_x := m * params.x + line_y0 - m * line_x0
    let sight : ℝ := if params.y < line_y_at_car_x then 0.5 else 1
    let racing_track := get_racing_track2
    let idxs := draw_ray params racing_track sight
    let steering_score := score_steering2 params (racing_track.getD idxs.1.toNat (0, 0))
    let speed_score := score_speed2 params
    let center_score := score_center2 params (racing_track.getD idxs.2.toNat (0, 0))
    let progress_score := score_progress2 params
    let steering_weight : ℝ := 0.1
    let speed_weight : ℝ := 0.5
    let center_weight : ℝ := 0.3
    let progress_weight : ℝ := 0.1
    let reward := steering_weight * steering_score + speed_weight * speed_score
      + center_weight * center_score + progress_weight * progress_score
    max (min reward reward_max2) reward_min2



/-- Value stored in a Python `params` mapping: the telemetry values are
floats, `is_offtrack` is a bool. -/
inductive PyVal
  | num (r : ℝ)
  | boolean (b : Bool)

/-- Errors a `reward_function` call can raise: `KeyError` from a missing
dictionary key (Python names the key), `ZeroDivisionError` from
`score_center`'s division by `track_width`. -/
inductive PyErr
  | keyError (key : String)
  | zeroDivisionError

/-- A Python mapping from key names to values; absent keys give `none`. -/
abbrev Dict : Type := String → Option PyVal

/-- Numeric reading of a `PyVal` (Python booleans are the numbers 0/1). -/
def asNum : PyVal → ℝ
  | .num r => r
  | .boolean b => if b then 1 else 0

/-- Python `params[k]` used as a number: a missing key raises
`KeyError(k)`. -/
def getNum (d : Dict) (k : String) : Except PyErr ℝ :=
  match d k with
  | none => .error (.keyError k)
  | some v => .ok (asNum v)

/-- Python `params[k]` used as a value: a missing key raises
`KeyError(k)`. -/
def getVal (d : Dict) (k : String) : Except PyErr PyVal :=
  match d k with
  | none => .error (.keyError k)
  | some v => .ok v

/-- Python truthiness of a stored value (`if params["is_offtrack"]:`). -/
def truthy : PyVal → Bool
  | .num r => if r = 0 then false else true
  | .boolean b => b

/-- Keys carthing.py's `reward_function` reads, in order of first access
(lines 20, 23, then inside `draw_ray`, `score_steering`, `score_speed`,
`score_progress`). -/
def reqKeys : List String :=
  ["x", "y", "track_width", "heading", "steering_angle", "speed", "progress"]

/-- Keys carthing.py's `reward_function` reads before `score_center` runs,
in order of first access: `x` (line 20), `y` (line 23), `track_width`
(inside `draw_ray`, line 82), `heading` and `steering_angle` (inside
`score_steering`, lines 103-104), `speed` (inside `score_speed`,
line 123). -/
def preCenterKeys : List String :=
  ["x", "y", "track_width", "heading", "steering_angle", "speed"]

/-- carthing.py `reward_function` at the dictionary level, with each key
fetched at its first access point in the source (the mapping is immutable
during the call, so later repeated subscripts of the same key cannot fail
differently).  The six `preCenterKeys` are all read before `score_center`
runs, so their `KeyError`s fire first; `score_center`'s possible
`ZeroDivisionError` comes next; `progress` is only read afterwards, inside
`score_progress` (line 176, called at line 38).  The record handed to the
scorers that run before `score_progress` carries a placeholder progress
field that none of them reads (`draw_ray` reads x, y, track_width;
`score_steering` reads x, y, heading, steering_angle; `score_speed` and
`score_speed_steering` read speed and steering_angle; `score_center` reads
track_width, x, y). -/
def reward_function_dict (last_progress : ℝ) (d : Dict) :
    Except PyErr (ℝ × ℝ) :=
  match getNum d "x" with
  | .error e => .error e
  | .ok x =>
  match getNum d "y" with
  | .error e => .error e
  | .ok y =>
  match getNum d "track_width" with
  | .error e => .error e
  | .ok track_width =>
  match getNum d "heading" with
  | .error e => .error e
  | .ok heading =>
  match getNum d "steering_angle" with
  | .error e => .error e
  | .ok steering_angle =>
  match getNum d "speed" with
  | .error e => .error e
  | .ok speed =>
  let p0 : Params :=
    ⟨x, y, heading, steering_angle, speed, track_width, 0, false⟩
  let m := ((6 : ℝ) - (-7)) / ((-6 : ℝ) - 7)
  let line_y_at_car_x := m * x + (-7) - m * 7
  let sight : ℝ := if y < line_y_at_car_x then 0.25 else 0.5
  let racing_track := get_racing_track
  let idxs := draw_ray p0 (racing_track.map wp_xy) sight
  let s1 := score_steering p0 (racing_track.getD idxs.1.toNat (0, 0, 0))
  let s2 := score_speed p0 (racing_track.getD idxs.2.toNat (0, 0, 0))
  match score_center p0 (racing_track.getD idxs.2.toNat (0, 0, 0)) with
  | none => .error .zeroDivisionError
  | some s3 =>
  match getNum d "progress" with
  | .error e => .error e
  | .ok progress =>
  let s4 := score_progress last_progress
    ⟨x, y, heading, steering_angle, speed, track_width, progress, false⟩
  let s5 := score_speed_steering p0
  .ok (0.0 + s1 + s2 + s3 + s4.1 + s5, s4.2)

/-- carthing2.py `reward_function` at the dictionary level: `is_offtrack`
is accessed first (line 19) and, when truthy, the function returns `1e-3`
before any other key is read; otherwise the remaining keys are fetched in
first-access order and the computation is `reward_function2`. -/
def reward_function2_dict (d : Dict) : Except PyErr ℝ :=
  match getVal d "is_offtrack" with
  | .error e => .error e
  | .ok offtrack =>
  if truthy offtrack then .ok 1e-3
  else
  match getNum d "x" with
  | .error e => .error e
  | .ok x =>
  match getNum d "y" with
  | .error e => .error e
  | .ok y =>
  match getNum d "track_width" with
  | .error e => .error e
  | .ok track_width =>
  match getNum d "heading" with
  | .error e => .error e
  | .ok heading =>
  match getNum d "steering_angle" with
  | .error e => .error e
  | .ok steering_angle =>
  match getNum d "speed" with
  | .error e => .error e
  | .ok speed =>
  match getNum d "progress" with
  | .error e => .error e
  | .ok progress =>
  .ok (reward_function2
    ⟨x, y, heading, steering_angle, speed, track_width, progress, false⟩)

/-- Holds when an optional (reward, state) result is a value whose reward
exceeds `c`. -/
def optionFstGreater (c : ℝ) : Option (ℝ × ℝ) → Prop
  | none => False
  | some q => c < q.1

/-- Holds when an optional (reward, state) result, if it is a value, has
reward at least `c`. -/
def optionFstAtLeast (c : ℝ) : Option (ℝ × ℝ) → Prop
  | none => True
  | some q => c ≤ q.1

/-- Telemetry with a large progress delta available (progress 100, all else
benign, track_width 1). -/
def pBig : Params := ⟨0, 0, 0, 0, 0, 1, 100, false⟩

/-- Telemetry with degenerate geometry: `track_width = 0`. -/
def pTw0 : Params := ⟨0, 0, 0, 0, 0, 0, 100, false⟩

/-- Car at the origin heading east with zero steering; the ideal target
steering toward the waypoint `(1, 0)` is 0. -/
def pC6a : Params := ⟨0, 0, 0, 0, 0, 1, 0, false⟩

/-- Same pose as `pC6a` but with steering angle 3. -/
def pC6b : Params := ⟨0, 0, 0, 3, 0, 1, 0, false⟩

/-- Telemetry flagged off-track. -/
def pOff : Params := ⟨1, 2, 3, 4, 5, 6, 7, true⟩

/-- A mapping that contains only a truthy `is_offtrack` and none of the
other keys. -/
def dOff : Dict := fun k => if k = "is_offtrack" then some (.boolean true) else none

/-- The empty mapping: every key is missing. -/
def dNone : Dict := fun _ => none

/-- A mapping holding the six keys read before `score_center` (all 0, in
particular `track_width = 0`) and missing `progress`: carthing.py raises
`ZeroDivisionError` on it before `progress` is ever read. -/
def dTw0 : Dict := fun k =>
  if k = "x" then some (.num 0)
  else if k = "y" then some (.num 0)
  else if k = "track_width" then some (.num 0)
  else if k = "heading" then some (.num 0)
  else if k = "steering_angle" then some (.num 0)
  else if k = "speed" then some (.num 0)
  else none

/-- Like `dTw0` but with `track_width = 1`: here the missing `progress` is
reached and raises `KeyError`. -/
def dNoProg : Dict := fun k =>
  if k = "x" then some (.num 0)
  else if k = "y" then some (.num 0)
  else if k = "track_width" then some (.num 1)
  else if k = "heading" then some (.num 0)
  else if k = "steering_angle" then some (.num 0)
  else if k = "speed" then some (.num 0)
  else none



/-! Helper lemmas shared by several claims. -/

lemma get_distance_nonneg (a b : ℝ × ℝ) : 0 ≤ get_distance a b :=
  Real.sqrt_nonneg _

lemma score_steering_ge (p : Params) (t : ℝ × ℝ × ℝ) :
    reward_min ≤ score_steering p t := by
  simp only [score_steering]
  exact le_max_right _ _

lemma score_speed_ge (p : Params) (t : ℝ × ℝ × ℝ) :
    reward_min ≤ score_speed p t := by
  simp only [score_speed]
  exact le_max_right _ _

lemma score_speed_steering_ge (p : Params) :
    reward_min ≤ score_speed_steering p := by
  simp only [score_speed_steering]
  exact le_max_left _ _

lemma score_center_none (p : Params) (target : ℝ × ℝ × ℝ)
    (h : p.track_width = 0) : score_center p target = none := by
  simp [score_center, h]

lemma score_center_some (p : Params) (target : ℝ × ℝ × ℝ)
    (h : p.track_width ≠ 0) :
    score_center p target =
      some (max (min (1.001 -
          |p.track_width - get_distance (p.x, p.y) (target.1, target.2.1)|
            / p.track_width) reward_max) reward_min) := by
  simp [score_center, h]

lemma reward_function_none (last_progress : ℝ) (p : Params)
    (h : p.track_width = 0) : reward_function last_progress p = none := by
  simp only [reward_function, score_center_none _ _ h]

lemma reward_function_decomp (p : Params) (h : p.track_width ≠ 0) :
    ∃ s1 s2 s3 s5 : ℝ,
      reward_min ≤ s1 ∧ reward_min ≤ s2 ∧ reward_min ≤ s3 ∧ reward_min ≤ s5 ∧
      ∀ last_progress : ℝ,
        reward_function last_progress p =
          some (0.0 + s1 + s2 + s3 +
            max ((p.progress - last_progress) * reward_max) reward_min + s5,
            p.progress) := by
  simp only [reward_function, score_center_some p _ h]
  exact ⟨_, _, _, _, score_steering_ge _ _, score_speed_ge _ _,
    le_max_right _ _, score_speed_steering_ge _, fun last_progress => rfl⟩

/-- C1 (corrected).  The weighted variant carthing2.py always returns a
reward in `[reward_min, reward_max] = [0.001, 10]`.  The additive variant
carthing.py returns (when it returns at all) a reward of at least
`reward_min`, hence finite and positive, but it is not bounded by
`reward_max = 5` (see the counterexample). -/
theorem c1_reward_bounds_amended :
    (∀ p : Params,
      reward_min2 ≤ reward_function2 p ∧ reward_function2 p ≤ reward_max2) ∧
    ∀ (last_progress : ℝ) (p : Params),
      optionFstAtLeast reward_min (reward_function last_progress p) := by
  constructor
  · intro p
    by_cases h : p.is_offtrack = true
    · simp only [reward_function2, h, if_true]
      norm_num [reward_min2, reward_max2]
    · simp only [reward_function2, h, if_false]
      exact ⟨le_max_right _ _,
        max_le (min_le_right _ _) (by norm_num [reward_min2, reward_max2])⟩
  · intro last_progress p
    by_cases h : p.track_width = 0
    · rw [reward_function_none last_progress p h]
      simp only [optionFstAtLeast]
    · obtain ⟨s1, s2, s3, s5, h1, h2, h3, h5, hEq⟩ := reward_function_decomp p h
      rw [hEq last_progress]
      simp only [optionFstAtLeast]
      norm_num [reward_min] at h1 h2 h3 h5 ⊢
      have hm : (1 / 1000 : ℝ) ≤
          (p.progress - last_progress) * reward_max ⊔ (1 / 1000 : ℝ) :=
        le_max_right _ _
      linarith

/-- C1 counterexample: with `progress = 100` and `last_progress = 0` the
additive variant's progress term is `max (100 * 5) 0.001 = 500`, so
carthing.py's reward exceeds `reward_max = 5`. -/
theorem c1_reward_bounds_cex :
    optionFstGreater reward_max (reward_function 0 pBig) := by
  obtain ⟨s1, s2, s3, s5, h1, h2, h3, h5, hEq⟩ :=
    reward_function_decomp pBig (by norm_num [pBig])
  rw [hEq 0]
  simp only [optionFstGreater]
  have e1 : max (((100 : ℝ) - 0) * reward_max) reward_min = 500 := by
    rw [max_eq_left (by norm_num [reward_max, reward_min])]
    norm_num [reward_max]
  simp only [pBig] at *
  rw [e1]
  norm_num [reward_min, reward_max] at h1 h2 h3 h5 ⊢
  linarith

/-- C2 (confirmed): the delta-based progress scorer of carthing.py returns
`max ((progress - last_progress) * reward_max) reward_min` and carries the
current progress forward as the new state; it is monotone in the progress
delta, strictly so above the floor, and a second call with `progress = 1`
after a first call with `progress = 0` scores the full `+1` delta,
`1 * reward_max`. -/
theorem c2_score_progress_spec :
    (∀ (last_progress : ℝ) (p : Params),
      score_progress last_progress p =
        (max ((p.progress - last_progress) * reward_max) reward_min,
          p.progress)) ∧
    (∀ (last_progress : ℝ) (p q : Params),
      p.progress - last_progress ≤ q.progress - last_progress →
      (score_progress last_progress p).1 ≤ (score_progress last_progress q).1) ∧
    (∀ (last_progress : ℝ) (p q : Params),
      p.progress - last_progress < q.progress - last_progress →
      reward_min < (q.progress - last_progress) * reward_max →
      (score_progress last_progress p).1 < (score_progress last_progress q).1) ∧
    ∀ (last_progress : ℝ) (p q : Params), p.progress = 0 → q.progress = 1 →
      (score_progress (score_progress last_progress p).2 q).1 = reward_max := by
  refine ⟨fun _ _ => rfl, ?_, ?_, ?_⟩
  · intro last_progress p q hle
    simp only [score_progress]
    exact max_le_max (mul_le_mul_of_nonneg_right hle
      (by norm_num [reward_max])) le_rfl
  · intro last_progress p q hlt hfloor
    simp only [score_progress]
    rw [max_eq_left (le_of_lt hfloor)]
    exact max_lt (mul_lt_mul_of_pos_right hlt (by norm_num [reward_max])) hfloor
  · intro last_progress p q hp hq
    simp only [score_progress, hp, hq]
    rw [max_eq_left (by norm_num [reward_max, reward_min])]
    norm_num

/-- C2 witness: concrete instances of the monotonicity and the
two-call scenario. -/
theorem c2_score_progress_spec_witness :
    ((0 : ℝ) - 0 < (⟨0, 0, 0, 0, 0, 1, 1, false⟩ : Params).progress - 0 ∧
      reward_min < ((⟨0, 0, 0, 0, 0, 1, 1, false⟩ : Params).progress - 0) * reward_max ∧
      (score_progress 0 pC6a).1 <
        (score_progress 0 (⟨0, 0, 0, 0, 0, 1, 1, false⟩ : Params)).1) ∧
    pC6a.progress = 0 ∧
    (score_progress (score_progress 0 pC6a).2
      (⟨0, 0, 0, 0, 0, 1, 1, false⟩ : Params)).1 = reward_max := by
  refine ⟨⟨by norm_num [pC6a], by norm_num [reward_min, reward_max], ?_⟩, rfl, ?_⟩
  · exact c2_score_progress_spec.2.2.1 0 pC6a _
      (by norm_num [pC6a]) (by norm_num [reward_min, reward_max])
  · exact c2_score_progress_spec.2.2.2 0 pC6a _ rfl rfl

/-- C7 (confirmed): carthing2.py returns exactly the minimum reward `1e-3 =
0.001` as soon as the telemetry is flagged off-track, whatever the other
fields hold. -/
theorem c7_offtrack_short_circuit (p : Params) (h : p.is_offtrack = true) :
    reward_function2 p = reward_min2 := by
  simp only [reward_function2, h, if_true]
  norm_num [reward_min2]

/-- C7 witness at a concrete off-track telemetry record. -/
theorem c7_offtrack_short_circuit_witness :
    pOff.is_offtrack = true ∧ reward_function2 pOff = reward_min2 :=
  ⟨rfl, c7_offtrack_short_circuit pOff rfl⟩

/-- C10 (confirmed): carthing2.py's reward is a pure function of the
telemetry (two calls on equal inputs agree, and the model needs no state
parameter), while carthing.py's reward depends on the carried
`last_progress`, shown at a concrete input. -/
theorem c10_stateless_deterministic :
    (∀ p q : Params, p = q → reward_function2 p = reward_function2 q) ∧
    reward_function 0 pBig ≠ reward_function 50 pBig := by
  constructor
  · intro p q h
    rw [h]
  · obtain ⟨s1, s2, s3, s5, h1, h2, h3, h5, hEq⟩ :=
      reward_function_decomp pBig (by norm_num [pBig])
    rw [hEq 0, hEq 50]
    intro hcon
    rw [Option.some_inj] at hcon
    have hfst := congrArg Prod.fst hcon
    simp only [pBig] at hfst
    have e1 : max (((100 : ℝ) - 0) * reward_max) reward_min = 500 := by
      rw [max_eq_left (by norm_num [reward_max, reward_min])]
      norm_num [reward_max]
    have e2 : max (((100 : ℝ) - 50) * reward_max) reward_min = 250 := by
      rw [max_eq_left (by norm_num [reward_max, reward_min])]
      norm_num [reward_max]
    rw [e1, e2] at hfst
    linarith [hfst]

/-- C10 witness: the determinism conjunct applied at a concrete record. -/
theorem c10_stateless_deterministic_witness :
    reward_function2 pOff = reward_function2 pOff :=
  c10_stateless_deterministic.1 pOff pOff rfl



lemma pymod_nonneg_lt (a b : ℝ) (hb : 0 < b) :
    0 ≤ pymod a b ∧ pymod a b < b := by
  have hbne : b ≠ 0 := ne_of_gt hb
  have e : b * (a / b) = a := by field_simp
  constructor
  · have h1 : (⌊a / b⌋ : ℝ) ≤ a / b := Int.floor_le _
    have h2 : b * (⌊a / b⌋ : ℝ) ≤ b * (a / b) :=
      mul_le_mul_of_nonneg_left h1 (le_of_lt hb)
    rw [e] at h2
    simp only [pymod]
    linarith
  · have h1 : a / b < (⌊a / b⌋ : ℝ) + 1 := Int.lt_floor_add_one _
    have h2 : b * (a / b) < b * ((⌊a / b⌋ : ℝ) + 1) :=
      mul_lt_mul_of_pos_left h1 hb
    rw [e] at h2
    simp only [pymod]
    nlinarith

lemma degrees_lt_of_lt_pi (r : ℝ) (h : r < Real.pi) : degrees r < 180 := by
  rw [degrees, div_lt_iff₀ Real.pi_pos]
  nlinarith [Real.pi_pos]

lemma neg_le_degrees_of_neg_pi_le (r : ℝ) (h : -Real.pi ≤ r) :
    -180 ≤ degrees r := by
  rw [degrees, le_div_iff₀ Real.pi_pos]
  nlinarith [Real.pi_pos]

lemma degrees_sub_two_pi_mul (x : ℝ) (k : ℤ) :
    degrees (x - 2 * Real.pi * (k : ℝ)) = degrees x - 360 * (k : ℝ) := by
  rw [degrees, degrees]
  have hpi : Real.pi ≠ 0 := Real.pi_ne_zero
  field_simp
  ring

/-- C3 (corrected).  `get_difference_degrees` normalizes the signed
difference into the half-open interval `[-180, 180)` (not `(-180, 180]`:
a difference of exactly `pi` radians is mapped to `-180`), and the result
is congruent to `degrees (a1 - a2)` modulo 360. -/
theorem c3_angle_diff_amended (angle1 angle2 : ℝ) :
    -180 ≤ get_difference_degrees angle1 angle2 ∧
    get_difference_degrees angle1 angle2 < 180 ∧
    ∃ k : ℤ, get_difference_degrees angle1 angle2 =
      degrees (angle1 - angle2) - 360 * (k : ℝ) := by
  have hb : (0 : ℝ) < 2.0 * Real.pi := by
    norm_num
    exact Real.pi_pos
  obtain ⟨h0, hlt⟩ := pymod_nonneg_lt (angle1 - angle2) (2.0 * Real.pi) hb
  have hmod : pymod (angle1 - angle2) (2.0 * Real.pi) =
      (angle1 - angle2) - 2 * Real.pi *
        ((⌊(angle1 - angle2) / (2.0 * Real.pi)⌋ : ℤ) : ℝ) := by
    simp only [pymod]
    ring
  simp only [get_difference_degrees]
  by_cases hge : pymod (angle1 - angle2) (2.0 * Real.pi) ≥ Real.pi
  · rw [if_pos hge]
    refine ⟨?_, ?_, ?_⟩
    · apply neg_le_degrees_of_neg_pi_le
      nlinarith [Real.pi_pos]
    · apply degrees_lt_of_lt_pi
      nlinarith [Real.pi_pos]
    · refine ⟨⌊(angle1 - angle2) / (2.0 * Real.pi)⌋ + 1, ?_⟩
      rw [show pymod (angle1 - angle2) (2.0 * Real.pi) - 2.0 * Real.pi =
          (angle1 - angle2) - 2 * Real.pi *
            (((⌊(angle1 - angle2) / (2.0 * Real.pi)⌋ + 1 : ℤ) : ℝ)) from by
        rw [hmod]
        push_cast
        ring]
      rw [degrees_sub_two_pi_mul]
  · rw [if_neg hge]
    push_neg at hge
    refine ⟨?_, ?_, ?_⟩
    · apply neg_le_degrees_of_neg_pi_le
      nlinarith [Real.pi_pos]
    · exact degrees_lt_of_lt_pi _ hge
    · refine ⟨⌊(angle1 - angle2) / (2.0 * Real.pi)⌋, ?_⟩
      rw [show pymod (angle1 - angle2) (2.0 * Real.pi) =
          (angle1 - angle2) - 2 * Real.pi *
            ((⌊(angle1 - angle2) / (2.0 * Real.pi)⌋ : ℤ) : ℝ) from hmod]
      rw [degrees_sub_two_pi_mul]

/-- C3 counterexample: for a difference of exactly `pi` radians the code
returns `-180`, which does not lie in the claimed interval `(-180, 180]`. -/
theorem c3_angle_diff_cex :
    get_difference_degrees Real.pi 0 = -180 ∧
    get_difference_degrees Real.pi 0 ∉ Set.Ioc (-180 : ℝ) 180 := by
  have hpi : Real.pi ≠ 0 := Real.pi_ne_zero
  have hdiv : (Real.pi - 0) / (2.0 * Real.pi) = 1 / 2 := by
    rw [sub_zero, div_eq_iff (by positivity)]
    ring
  have hflo : ⌊(Real.pi - 0) / (2.0 * Real.pi)⌋ = 0 := by
    rw [hdiv]
    norm_num
  have hmod : pymod (Real.pi - 0) (2.0 * Real.pi) = Real.pi := by
    simp only [pymod, hflo]
    norm_num
  have h : get_difference_degrees Real.pi 0 = -180 := by
    simp only [get_difference_degrees, hmod]
    rw [if_pos le_rfl]
    rw [degrees, div_eq_iff hpi]
    ring
  refine ⟨h, ?_⟩
  rw [h]
  simp [Set.mem_Ioc]



lemma gdl_loop_fst (car : ℝ × ℝ) (ws : List (ℝ × ℝ)) :
    ∀ (i : ℕ) (md : WithTop ℝ) (mi : ℤ),
      (gdl_loop car ws i md mi).1 = ws.map (get_distance car) := by
  induction ws with
  | nil => intro i md mi; rfl
  | cons w ws ih =>
    intro i md mi
    simp only [gdl_loop, List.map_cons]
    split <;> simp [ih]

lemma getD_nonneg (l : List ℝ) (h : ∀ x ∈ l, 0 ≤ x) (n : ℕ) :
    0 ≤ l.getD n 0 := by
  induction l generalizing n with
  | nil => simp [List.getD]
  | cons a l ih =>
    cases n with
    | zero => simpa using h a (by simp)
    | succ n =>
      simp only [List.getD_cons_succ]
      exact ih (fun x hx => h x (by simp [hx])) n

lemma intFloorTenth_eq (n : ℕ) : intFloorTenth n = n / 10 := by
  rw [intFloorTenth]
  have h : ((n : ℝ)) * 0.1 = ((n : ℝ)) / (((10 : ℕ) : ℝ)) := by
    rw [show (((10 : ℕ) : ℝ)) = 10 from by norm_num,
      show (0.1 : ℝ) = 1 / 10 from by norm_num, mul_one_div]
  rw [h, Int.floor_toNat, Nat.floor_div_eq_div]

/-- C8 (corrected).  `draw_ray` does treat a zero track width as a zero
target distance: the sight scan breaks at the very first scanned offset
`min_idx + 5` (distances are nonnegative).  But carthing.py's
`score_center` divides by `track_width` without a guard, so for
`track_width = 0` the whole `reward_function` raises `ZeroDivisionError`
(modelled: returns `none`) instead of returning the minimum reward. -/
theorem c8_zero_track_width_amended :
    (∀ (last_progress : ℝ) (p : Params), p.track_width = 0 →
      reward_function last_progress p = none) ∧
    ∀ (p : Params) (ws : List (ℝ × ℝ)) (sight : ℝ), p.track_width = 0 →
      5 < intFloorTenth ws.length →
      (draw_ray p ws sight).1 =
        ((get_distance_list (p.x, p.y) ws).2.2.1 + 5) % (ws.length : ℤ) := by
  constructor
  · exact fun l p h => reward_function_none l p h
  · intro p ws sight htw hB
    have hwin : sight_window ws.length =
        5 :: List.range' 6 (intFloorTenth ws.length - 6) := by
      rw [sight_window, show intFloorTenth ws.length - 5 =
        (intFloorTenth ws.length - 6) + 1 from by omega, List.range'_succ]
    simp only [draw_ray, get_distance_list, hwin, draw_ray_loop, htw, zero_mul]
    rw [if_pos]
    · norm_num
    · apply getD_nonneg
      rw [gdl_loop_fst]
      intro x hx
      simp only [List.mem_map] at hx
      obtain ⟨w, _, hw⟩ := hx
      rw [← hw]
      exact get_distance_nonneg _ _

/-- C8 counterexample: at `track_width = 0` carthing.py's reward function
raises `ZeroDivisionError` (modelled as `none`) instead of never raising. -/
theorem c8_zero_track_width_cex : reward_function 0 pTw0 = none :=
  reward_function_none 0 pTw0 rfl

/-- C8 witness: both conjuncts applied at concrete inputs (the carthing2
track has 121 waypoints, so its sight window is nonempty). -/
theorem c8_zero_track_width_amended_witness :
    (pTw0.track_width = 0 ∧ reward_function 0 pTw0 = none) ∧
    5 < intFloorTenth get_racing_track2.length ∧
    (draw_ray pTw0 get_racing_track2 1).1 =
      ((get_distance_list (pTw0.x, pTw0.y) get_racing_track2).2.2.1 + 5) %
        (get_racing_track2.length : ℤ) := by
  have hlen : get_racing_track2.length = 121 := rfl
  have hB : 5 < intFloorTenth get_racing_track2.length := by
    rw [intFloorTenth_eq, hlen]
    norm_num
  exact ⟨⟨rfl, c8_zero_track_width_amended.1 0 pTw0 rfl⟩, hB,
    c8_zero_track_width_amended.2 pTw0 get_racing_track2 1 rfl hB⟩



lemma gdl_loop_min (car : ℝ × ℝ) :
    ∀ (ws : List (ℝ × ℝ)) (i : ℕ) (md : WithTop ℝ) (mi : ℤ),
      ((gdl_loop car ws i md mi).2 = (md, mi) ∧
        ∀ w ∈ ws, md ≤ ((get_distance car w : ℝ) : WithTop ℝ)) ∨
      ∃ k : ℕ, ∃ hk : k < ws.length,
        (gdl_loop car ws i md mi).2.1 =
          ((get_distance car (ws.get ⟨k, hk⟩) : ℝ) : WithTop ℝ) ∧
        (gdl_loop car ws i md mi).2.2 = (i : ℤ) + (k : ℤ) ∧
        ((get_distance car (ws.get ⟨k, hk⟩) : ℝ) : WithTop ℝ) < md ∧
        (∀ j : ℕ, ∀ hj : j < ws.length,
          get_distance car (ws.get ⟨k, hk⟩) ≤ get_distance car (ws.get ⟨j, hj⟩)) ∧
        ∀ j : ℕ, ∀ hj : j < ws.length, j < k →
          get_distance car (ws.get ⟨k, hk⟩) < get_distance car (ws.get ⟨j, hj⟩) := by
  intro ws
  induction ws with
  | nil =>
    intro i md mi
    left
    exact ⟨rfl, by simp⟩
  | cons w ws ih =>
    intro i md mi
    by_cases hlt : ((get_distance car w : ℝ) : WithTop ℝ) < md
    · have hred : (gdl_loop car (w :: ws) i md mi).2 =
          (gdl_loop car ws (i + 1) ((get_distance car w : ℝ) : WithTop ℝ)
            (i : ℤ)).2 := by
        simp only [gdl_loop, if_pos hlt]
      rcases ih (i + 1) ((get_distance car w : ℝ) : WithTop ℝ) (i : ℤ) with
        ⟨heq, hall⟩ | ⟨k, hk, h1, h2, h3, h4, h5⟩
      · right
        refine ⟨0, by simp, ?_, ?_, ?_, ?_, ?_⟩
        · rw [hred, heq]
          simp
        · rw [hred, heq]
          simp
        · exact hlt
        · intro j hj
          cases j with
          | zero => exact le_refl _
          | succ j =>
            have hj2 : j < ws.length := Nat.lt_of_succ_lt_succ hj
            have := hall (ws.get ⟨j, hj2⟩) (List.get_mem ws j hj2)
            exact WithTop.coe_le_coe.mp this
        · intro j hj hj0
          omega
      · right
        have hk2 : k + 1 < (w :: ws).length := by
          simp only [List.length_cons]
          omega
        refine ⟨k + 1, hk2, ?_, ?_, ?_, ?_, ?_⟩
        · rw [hred, h1]
          simp
        · rw [hred, h2]
          push_cast
          ring
        · exact h3.trans hlt
        · intro j hj
          cases j with
          | zero =>
            exact le_of_lt (WithTop.coe_lt_coe.mp h3)
          | succ j =>
            exact h4 j (Nat.lt_of_succ_lt_succ hj)
        · intro j hj hjk
          cases j with
          | zero => exact WithTop.coe_lt_coe.mp h3
          | succ j =>
            exact h5 j (Nat.lt_of_succ_lt_succ hj) (Nat.lt_of_succ_lt_succ hjk)
    · have hred : (gdl_loop car (w :: ws) i md mi).2 =
          (gdl_loop car ws (i + 1) md mi).2 := by
        simp only [gdl_loop, if_neg hlt]
      have hge : md ≤ ((get_distance car w : ℝ) : WithTop ℝ) := not_lt.mp hlt
      rcases ih (i + 1) md mi with ⟨heq, hall⟩ | ⟨k, hk, h1, h2, h3, h4, h5⟩
      · left
        refine ⟨by rw [hred, heq], ?_⟩
        intro w2 hw2
        rcases List.mem_cons.mp hw2 with hw2 | hw2
        · rw [hw2]
          exact hge
        · exact hall w2 hw2
      · right
        have hk2 : k + 1 < (w :: ws).length := by
          simp only [List.length_cons]
          omega
        refine ⟨k + 1, hk2, ?_, ?_, ?_, ?_, ?_⟩
        · rw [hred, h1]
          simp
        · rw [hred, h2]
          push_cast
          ring
        · exact h3
        · intro j hj
          cases j with
          | zero =>
            exact le_of_lt (WithTop.coe_lt_coe.mp (lt_of_lt_of_le h3 hge))
          | succ j =>
            exact h4 j (Nat.lt_of_succ_lt_succ hj)
        · intro j hj hjk
          cases j with
          | zero => exact WithTop.coe_lt_coe.mp (lt_of_lt_of_le h3 hge)
          | succ j =>
            exact h5 j (Nat.lt_of_succ_lt_succ hj) (Nat.lt_of_succ_lt_succ hjk)

/-- C4 (confirmed): for a non-empty waypoint list, `get_distance_list`
returns the full list of Euclidean distances, the minimum distance, the
index of the minimum and the table length; the returned index is the first
index attaining the minimum (all earlier waypoints are strictly farther),
so ties are broken toward the lowest index. -/
theorem c4_get_distance_list_spec (car : ℝ × ℝ) (waypoints : List (ℝ × ℝ))
    (h : waypoints ≠ []) :
    (get_distance_list car waypoints).1 = waypoints.map (get_distance car) ∧
    (get_distance_list car waypoints).2.2.2 = waypoints.length ∧
    ∃ k : ℕ, ∃ hk : k < waypoints.length,
      (get_distance_list car waypoints).2.2.1 = (k : ℤ) ∧
      (get_distance_list car waypoints).2.1 =
        ((get_distance car (waypoints.get ⟨k, hk⟩) : ℝ) : WithTop ℝ) ∧
      (∀ j : ℕ, ∀ hj : j < waypoints.length,
        get_distance car (waypoints.get ⟨k, hk⟩) ≤
          get_distance car (waypoints.get ⟨j, hj⟩)) ∧
      ∀ j : ℕ, ∀ hj : j < waypoints.length, j < k →
        get_distance car (waypoints.get ⟨k, hk⟩) <
          get_distance car (waypoints.get ⟨j, hj⟩) := by
  refine ⟨?_, rfl, ?_⟩
  · simp only [get_distance_list]
    exact gdl_loop_fst car waypoints 0 ⊤ (-1)
  · rcases gdl_loop_min car waypoints 0 ⊤ (-1) with
      ⟨heq, hall⟩ | ⟨k, hk, h1, h2, h3, h4, h5⟩
    · obtain ⟨w, hw⟩ := List.exists_mem_of_ne_nil _ h
      exact absurd (hall w hw) (by simp)
    · refine ⟨k, hk, ?_, ?_, h4, h5⟩
      · show (gdl_loop car waypoints 0 ⊤ (-1)).2.2 = (k : ℤ)
        rw [h2]
        simp
      · exact h1

/-- C4 witness: the second waypoint of a concrete two-point table is the
unique nearest one. -/
theorem c4_get_distance_list_spec_witness :
    (([((3 : ℝ), (4 : ℝ)), ((0 : ℝ), (1 : ℝ))] : List (ℝ × ℝ)) ≠ []) ∧
    ((get_distance_list ((0 : ℝ), (0 : ℝ))
        [((3 : ℝ), (4 : ℝ)), ((0 : ℝ), (1 : ℝ))]).1 =
      ([((3 : ℝ), (4 : ℝ)), ((0 : ℝ), (1 : ℝ))] : List (ℝ × ℝ)).map
        (get_distance ((0 : ℝ), (0 : ℝ))) ∧
    (get_distance_list ((0 : ℝ), (0 : ℝ))
        [((3 : ℝ), (4 : ℝ)), ((0 : ℝ), (1 : ℝ))]).2.2.2 =
      ([((3 : ℝ), (4 : ℝ)), ((0 : ℝ), (1 : ℝ))] : List (ℝ × ℝ)).length ∧
    ∃ k : ℕ,
      ∃ hk : k < ([((3 : ℝ), (4 : ℝ)), ((0 : ℝ), (1 : ℝ))] : List (ℝ × ℝ)).length,
      (get_distance_list ((0 : ℝ), (0 : ℝ))
          [((3 : ℝ), (4 : ℝ)), ((0 : ℝ), (1 : ℝ))]).2.2.1 = (k : ℤ) ∧
      (get_distance_list ((0 : ℝ), (0 : ℝ))
          [((3 : ℝ), (4 : ℝ)), ((0 : ℝ), (1 : ℝ))]).2.1 =
        ((get_distance ((0 : ℝ), (0 : ℝ))
          (([((3 : ℝ), (4 : ℝ)), ((0 : ℝ), (1 : ℝ))] : List (ℝ × ℝ)).get
            ⟨k, hk⟩) : ℝ) : WithTop ℝ) ∧
      (∀ j : ℕ,
        ∀ hj : j < ([((3 : ℝ), (4 : ℝ)), ((0 : ℝ), (1 : ℝ))] : List (ℝ × ℝ)).length,
        get_distance ((0 : ℝ), (0 : ℝ))
            (([((3 : ℝ), (4 : ℝ)), ((0 : ℝ), (1 : ℝ))] : List (ℝ × ℝ)).get ⟨k, hk⟩) ≤
          get_distance ((0 : ℝ), (0 : ℝ))
            (([((3 : ℝ), (4 : ℝ)), ((0 : ℝ), (1 : ℝ))] : List (ℝ × ℝ)).get ⟨j, hj⟩)) ∧
      ∀ j : ℕ,
        ∀ hj : j < ([((3 : ℝ), (4 : ℝ)), ((0 : ℝ), (1 : ℝ))] : List (ℝ × ℝ)).length,
        j < k →
        get_distance ((0 : ℝ), (0 : ℝ))
            (([((3 : ℝ), (4 : ℝ)), ((0 : ℝ), (1 : ℝ))] : List (ℝ × ℝ)).get ⟨k, hk⟩) <
          get_distance ((0 : ℝ), (0 : ℝ))
            (([((3 : ℝ), (4 : ℝ)), ((0 : ℝ), (1 : ℝ))] : List (ℝ × ℝ)).get ⟨j, hj⟩)) :=
  ⟨by simp, c4_get_distance_list_spec ((0 : ℝ), (0 : ℝ)) _ (by simp)⟩



lemma draw_ray_loop_spec (dist_list : List ℝ) (N : ℕ) (mi : ℤ) (td : ℝ) :
    ∀ (n a : ℕ) (tgt : ℤ),
      (n = 0 ∧ draw_ray_loop dist_list N mi td (List.range' a n) tgt = tgt) ∨
      (∃ j : ℕ, a ≤ j ∧ j < a + n ∧
        td ≤ dist_list.getD ((mi + (j : ℤ)) % (N : ℤ)).toNat 0 ∧
        (∀ j2 : ℕ, a ≤ j2 → j2 < j →
          dist_list.getD ((mi + (j2 : ℤ)) % (N : ℤ)).toNat 0 < td) ∧
        draw_ray_loop dist_list N mi td (List.range' a n) tgt =
          (mi + (j : ℤ)) % (N : ℤ)) ∨
      ((∀ j : ℕ, a ≤ j → j < a + n →
          dist_list.getD ((mi + (j : ℤ)) % (N : ℤ)).toNat 0 < td) ∧ 0 < n ∧
        draw_ray_loop dist_list N mi td (List.range' a n) tgt =
          (mi + ((a + n - 1 : ℕ) : ℤ)) % (N : ℤ)) := by
  intro n
  induction n with
  | zero =>
    intro a tgt
    left
    exact ⟨rfl, rfl⟩
  | succ n ih =>
    intro a tgt
    rw [List.range'_succ]
    by_cases hhit : td ≤ dist_list.getD ((mi + (a : ℤ)) % (N : ℤ)).toNat 0
    · right
      left
      refine ⟨a, le_refl a, by omega, hhit, ?_, ?_⟩
      · intro j2 h1 h2
        omega
      · simp only [draw_ray_loop, if_pos hhit]
    · rcases ih (a + 1) ((mi + (a : ℤ)) % (N : ℤ)) with
        ⟨hn0, heq⟩ | ⟨j, hj1, hj2, hj3, hj4, heq⟩ | ⟨hmiss, hn, heq⟩
      · right
        right
        refine ⟨?_, by omega, ?_⟩
        · intro j h1 h2
          have hja : j = a := by omega
          rw [hja]
          exact lt_of_not_le hhit
        · simp only [draw_ray_loop, if_neg hhit]
          rw [heq]
          congr 2
          omega
      · right
        left
        refine ⟨j, by omega, by omega, hj3, ?_, ?_⟩
        · intro j2 h1 h2
          cases Nat.eq_or_lt_of_le h1 with
          | inl hx =>
            rw [← hx]
            exact lt_of_not_le hhit
          | inr hx => exact hj4 j2 hx h2
        · simp only [draw_ray_loop, if_neg hhit]
          exact heq
      · right
        right
        refine ⟨?_, by omega, ?_⟩
        · intro j h1 h2
          cases Nat.eq_or_lt_of_le h1 with
          | inl hx =>
            rw [← hx]
            exact lt_of_not_le hhit
          | inr hx => exact hmiss j hx (by omega)
        · simp only [draw_ray_loop, if_neg hhit]
          rw [heq]
          congr 2
          omega

/-- C5 (confirmed): `draw_ray` scans the offsets `5 .. int(0.1 * N) - 1`
forward from the nearest-waypoint index modulo `N`, records the last
visited index as the target, and stops early at the first scanned waypoint
whose distance to the car reaches `target_dist = track_width * sight`; if
`int(0.1 * N) <= 5` the window is empty and the target stays at the
nearest index. -/
theorem c5_draw_ray_spec (p : Params) (waypoints : List (ℝ × ℝ)) (sight : ℝ) :
    (draw_ray p waypoints sight).2 =
      (get_distance_list (p.x, p.y) waypoints).2.2.1 ∧
    (intFloorTenth waypoints.length ≤ 5 →
      (draw_ray p waypoints sight).1 =
        (get_distance_list (p.x, p.y) waypoints).2.2.1) ∧
    (5 < intFloorTenth waypoints.length →
      (∃ j : ℕ, 5 ≤ j ∧ j < intFloorTenth waypoints.length ∧
        p.track_width * sight ≤
          (get_distance_list (p.x, p.y) waypoints).1.getD
            (((get_distance_list (p.x, p.y) waypoints).2.2.1 + (j : ℤ)) %
              (waypoints.length : ℤ)).toNat 0 ∧
        (∀ j2 : ℕ, 5 ≤ j2 → j2 < j →
          (get_distance_list (p.x, p.y) waypoints).1.getD
            (((get_distance_list (p.x, p.y) waypoints).2.2.1 + (j2 : ℤ)) %
              (waypoints.length : ℤ)).toNat 0 < p.track_width * sight) ∧
        (draw_ray p waypoints sight).1 =
          ((get_distance_list (p.x, p.y) waypoints).2.2.1 + (j : ℤ)) %
            (waypoints.length : ℤ)) ∨
      ((∀ j : ℕ, 5 ≤ j → j < intFloorTenth waypoints.length →
          (get_distance_list (p.x, p.y) waypoints).1.getD
            (((get_distance_list (p.x, p.y) waypoints).2.2.1 + (j : ℤ)) %
              (waypoints.length : ℤ)).toNat 0 < p.track_width * sight) ∧
        (draw_ray p waypoints sight).1 =
          ((get_distance_list (p.x, p.y) waypoints).2.2.1 +
            ((intFloorTenth waypoints.length - 1 : ℕ) : ℤ)) %
            (waypoints.length : ℤ))) := by
  refine ⟨rfl, ?_, ?_⟩
  · intro hB
    have h0 : intFloorTenth waypoints.length - 5 = 0 := by omega
    have e : sight_window waypoints.length = [] := by
      rw [sight_window, h0]
      simp
    rw [show (draw_ray p waypoints sight).1 =
      draw_ray_loop (get_distance_list (p.x, p.y) waypoints).1
        waypoints.length (get_distance_list (p.x, p.y) waypoints).2.2.1
        (p.track_width * sight) (sight_window waypoints.length)
        (get_distance_list (p.x, p.y) waypoints).2.2.1 from rfl]
    rw [e]
    rfl
  · intro hB
    have hwin : sight_window waypoints.length =
        List.range' 5 (intFloorTenth waypoints.length - 5) := rfl
    rcases draw_ray_loop_spec (get_distance_list (p.x, p.y) waypoints).1
        waypoints.length (get_distance_list (p.x, p.y) waypoints).2.2.1
        (p.track_width * sight) (intFloorTenth waypoints.length - 5) 5
        (get_distance_list (p.x, p.y) waypoints).2.2.1 with
      ⟨hn0, _⟩ | ⟨j, hj1, hj2, hj3, hj4, heq⟩ | ⟨hmiss, _, heq⟩
    · omega
    · left
      refine ⟨j, hj1, by omega, hj3, hj4, ?_⟩
      rw [show (draw_ray p waypoints sight).1 =
        draw_ray_loop (get_distance_list (p.x, p.y) waypoints).1
          waypoints.length (get_distance_list (p.x, p.y) waypoints).2.2.1
          (p.track_width * sight)
          (List.range' 5 (intFloorTenth waypoints.length - 5))
          (get_distance_list (p.x, p.y) waypoints).2.2.1 from rfl]
      exact heq
    · right
      refine ⟨?_, ?_⟩
      · intro j h1 h2
        exact hmiss j h1 (by omega)
      · rw [show (draw_ray p waypoints sight).1 =
          draw_ray_loop (get_distance_list (p.x, p.y) waypoints).1
            waypoints.length (get_distance_list (p.x, p.y) waypoints).2.2.1
            (p.track_width * sight)
            (List.range' 5 (intFloorTenth waypoints.length - 5))
            (get_distance_list (p.x, p.y) waypoints).2.2.1 from rfl]
        rw [heq]
        congr 2
        omega



lemma target_steering_update (p : Params) (t : ℝ × ℝ × ℝ) (s : ℝ) :
    target_steering { p with steering_angle := s } t = target_steering p t :=
  rfl

lemma target_steering2_update (p : Params) (t : ℝ × ℝ) (s : ℝ) :
    target_steering2 { p with steering_angle := s } t = target_steering2 p t :=
  rfl

lemma score_steering_eq (p : Params) (t : ℝ × ℝ × ℝ)
    (h : |p.steering_angle - target_steering p t| ≤ 30) :
    score_steering p t =
      1.001 - |p.steering_angle - target_steering p t| / 30 := by
  have h0 : 0 ≤ |p.steering_angle - target_steering p t| := abs_nonneg _
  simp only [score_steering]
  rw [if_neg (not_lt.mpr h)]
  rw [min_eq_left (by rw [reward_max]; linarith)]
  rw [max_eq_left (by rw [reward_min]; linarith)]

lemma score_steering_floor (p : Params) (t : ℝ × ℝ × ℝ)
    (h : 30 < |p.steering_angle - target_steering p t|) :
    score_steering p t = reward_min := by
  simp only [score_steering]
  rw [if_pos h]
  rw [min_eq_left (by norm_num [reward_max] : (0.001 : ℝ) ≤ reward_max)]
  rw [show (0.001 : ℝ) = reward_min from by norm_num [reward_min], max_self]

lemma score_steering2_plateau (p : Params) (t : ℝ × ℝ)
    (h : |p.steering_angle - target_steering2 p t| ≤ 3) :
    score_steering2 p t = reward_max2 := by
  have h0 : 0 ≤ |p.steering_angle - target_steering2 p t| := abs_nonneg _
  simp only [score_steering2]
  rw [min_eq_right (by rw [reward_max2]; nlinarith)]
  rw [max_eq_left (by norm_num [reward_max2, reward_min2])]

lemma score_steering2_eq (p : Params) (t : ℝ × ℝ)
    (h3 : 3 ≤ |p.steering_angle - target_steering2 p t|)
    (h32 : |p.steering_angle - target_steering2 p t| ≤ 32.997) :
    score_steering2 p t =
      (1.1 - |p.steering_angle - target_steering2 p t| / 30.0) * reward_max2 := by
  simp only [score_steering2]
  rw [min_eq_left (by rw [reward_max2]; nlinarith)]
  rw [max_eq_left (by rw [reward_max2, reward_min2]; nlinarith)]

lemma score_steering2_floor (p : Params) (t : ℝ × ℝ)
    (h : 32.997 ≤ |p.steering_angle - target_steering2 p t|) :
    score_steering2 p t = reward_min2 := by
  have hv : (1.1 - |p.steering_angle - target_steering2 p t| / 30.0) *
      reward_max2 ≤ reward_min2 := by
    rw [reward_max2, reward_min2]
    nlinarith
  simp only [score_steering2]
  rw [min_eq_left (le_trans hv (by norm_num [reward_min2, reward_max2]))]
  rw [max_eq_right hv]

lemma atan2_zero_one : atan2 0 1 = 0 := by
  rw [atan2, if_pos one_pos]
  norm_num [Real.arctan_zero]

lemma gdd_zero_zero : get_difference_degrees 0 0 = 0 := by
  have hmod : pymod (0 - 0) (2.0 * Real.pi) = 0 := by
    simp [pymod]
  simp only [get_difference_degrees, hmod]
  rw [if_neg (not_le.mpr Real.pi_pos)]
  rw [degrees]
  norm_num

lemma target_steering2_east (p : Params) (hx : p.x = 0) (hy : p.y = 0)
    (hh : p.heading = 0) : target_steering2 p (1, 0) = 0 := by
  simp only [target_steering2, hx, hy, hh]
  norm_num [radians]
  rw [atan2_zero_one, gdd_zero_zero]
  rw [min_eq_right (by norm_num : (0 : ℝ) ≤ 30)]
  rw [max_eq_right (by norm_num : (-30 : ℝ) ≤ (0 : ℝ))]

/-- C6 (corrected).  In carthing.py the steering score is uniquely maximal
when the actual steering equals the ideal target steering, strictly
decreases as the absolute difference grows on `[0, 30]`, and equals
`reward_min` beyond `30`.  In carthing2.py, however, the score sits at its
maximum `reward_max = 10` on the whole plateau `diff <= 3`, strictly
decreases only on `[3, 32.997]`, and reaches the `reward_min` floor only at
`diff >= 32.997` (not at 30). -/
theorem c6_steering_amended :
    (∀ (p : Params) (t : ℝ × ℝ × ℝ) (s2 : ℝ),
      |p.steering_angle - target_steering p t| < |s2 - target_steering p t| →
      |s2 - target_steering p t| ≤ 30 →
      score_steering { p with steering_angle := s2 } t < score_steering p t) ∧
    (∀ (p : Params) (t : ℝ × ℝ × ℝ),
      30 < |p.steering_angle - target_steering p t| →
      score_steering p t = reward_min) ∧
    (∀ (p : Params) (t : ℝ × ℝ × ℝ),
      p.steering_angle ≠ target_steering p t →
      score_steering p t <
        score_steering { p with steering_angle := target_steering p t } t) ∧
    (∀ (p : Params) (t : ℝ × ℝ),
      |p.steering_angle - target_steering2 p t| ≤ 3 →
      score_steering2 p t = reward_max2) ∧
    (∀ (p : Params) (t : ℝ × ℝ), score_steering2 p t ≤ reward_max2) ∧
    (∀ (p : Params) (t : ℝ × ℝ) (s2 : ℝ),
      3 ≤ |p.steering_angle - target_steering2 p t| →
      |p.steering_angle - target_steering2 p t| < |s2 - target_steering2 p t| →
      |s2 - target_steering2 p t| ≤ 32.997 →
      score_steering2 { p with steering_angle := s2 } t < score_steering2 p t) ∧
    ∀ (p : Params) (t : ℝ × ℝ),
      32.997 ≤ |p.steering_angle - target_steering2 p t| →
      score_steering2 p t = reward_min2 := by
  refine ⟨?_, score_steering_floor, ?_, score_steering2_plateau, ?_, ?_,
    score_steering2_floor⟩
  · intro p t s2 hlt hle
    have h1 : |p.steering_angle - target_steering p t| ≤ 30 :=
      le_of_lt (lt_of_lt_of_le hlt hle)
    have h2 : |({ p with steering_angle := s2 } : Params).steering_angle -
        target_steering { p with steering_angle := s2 } t| ≤ 30 := by
      rw [target_steering_update]
      exact hle
    rw [score_steering_eq p t h1, score_steering_eq _ t h2]
    rw [show ({ p with steering_angle := s2 } : Params).steering_angle = s2
      from rfl, target_steering_update]
    linarith
  · intro p t hne
    have e0 : ({ p with steering_angle := target_steering p t } :
        Params).steering_angle -
        target_steering { p with steering_angle := target_steering p t } t
        = 0 := by
      rw [target_steering_update]
      show target_steering p t - target_steering p t = 0
      ring
    have habs : |({ p with steering_angle := target_steering p t } :
        Params).steering_angle -
        target_steering { p with steering_angle := target_steering p t } t|
        = 0 := by
      rw [e0, abs_zero]
    have hq : score_steering { p with steering_angle := target_steering p t }
        t = 1.001 := by
      rw [score_steering_eq _ _ (by rw [habs]; norm_num), habs]
      norm_num
    rw [hq]
    by_cases hd : |p.steering_angle - target_steering p t| ≤ 30
    · rw [score_steering_eq p t hd]
      have hpos : 0 < |p.steering_angle - target_steering p t| :=
        abs_pos.mpr (sub_ne_zero.mpr hne)
      linarith
    · rw [score_steering_floor p t (lt_of_not_le hd)]
      norm_num [reward_min]
  · intro p t
    simp only [score_steering2]
    exact max_le (min_le_right _ _) (by norm_num [reward_max2, reward_min2])
  · intro p t s2 h3 hlt hle
    have h2l : (3 : ℝ) ≤ |({ p with steering_angle := s2 } :
        Params).steering_angle -
        target_steering2 { p with steering_angle := s2 } t| := by
      rw [target_steering2_update]
      show (3 : ℝ) ≤ |s2 - target_steering2 p t|
      linarith
    have h2r : |({ p with steering_angle := s2 } : Params).steering_angle -
        target_steering2 { p with steering_angle := s2 } t| ≤ 32.997 := by
      rw [target_steering2_update]
      exact hle
    rw [score_steering2_eq p t h3 (by linarith), score_steering2_eq _ t h2l h2r]
    rw [show ({ p with steering_angle := s2 } : Params).steering_angle = s2
      from rfl, target_steering2_update]
    have hmul : (1.1 - |s2 - target_steering2 p t| / 30.0) <
        (1.1 - |p.steering_angle - target_steering2 p t| / 30.0) := by
      linarith
    exact mul_lt_mul_of_pos_right hmul (by norm_num [reward_max2])

/-- C6 counterexample: in carthing2.py a car whose steering angle (3)
differs from the ideal target steering (0) still scores the maximal 10,
the same score as the exact match, so the score is neither uniquely
maximal at the ideal steering nor strictly decreasing in the
difference. -/
theorem c6_steering_cex :
    pC6b.steering_angle ≠ target_steering2 pC6b (1, 0) ∧
    score_steering2 pC6b (1, 0) = reward_max2 ∧
    score_steering2 pC6a (1, 0) = reward_max2 ∧
    pC6a.steering_angle = target_steering2 pC6a (1, 0) := by
  have ha : target_steering2 pC6a (1, 0) = 0 :=
    target_steering2_east pC6a rfl rfl rfl
  have hb : target_steering2 pC6b (1, 0) = 0 :=
    target_steering2_east pC6b rfl rfl rfl
  have habs3 : |pC6b.steering_angle - target_steering2 pC6b (1, 0)| = 3 := by
    rw [hb, show pC6b.steering_angle = 3 from rfl, sub_zero]
    exact abs_of_nonneg (by norm_num)
  refine ⟨?_, ?_, ?_, ?_⟩
  · rw [hb, show pC6b.steering_angle = 3 from rfl]
    norm_num
  · exact score_steering2_plateau pC6b (1, 0) (by rw [habs3])
  · apply score_steering2_plateau pC6a (1, 0)
    rw [ha, show pC6a.steering_angle = 0 from rfl, sub_zero, abs_zero]
    norm_num
  · rw [ha]
    rfl

/-- C6 witness: the carthing2 plateau and floor conjuncts applied at
concrete inputs. -/
theorem c6_steering_amended_witness :
    (|pC6b.steering_angle - target_steering2 pC6b (1, 0)| ≤ 3 ∧
      score_steering2 pC6b (1, 0) = reward_max2) ∧
    (32.997 : ℝ) ≤
        |(⟨0, 0, 0, 40, 0, 1, 0, false⟩ : Params).steering_angle -
          target_steering2 (⟨0, 0, 0, 40, 0, 1, 0, false⟩ : Params) (1, 0)| ∧
    score_steering2 (⟨0, 0, 0, 40, 0, 1, 0, false⟩ : Params) (1, 0) =
      reward_min2 := by
  have hb : target_steering2 pC6b (1, 0) = 0 :=
    target_steering2_east pC6b rfl rfl rfl
  have h3 : |pC6b.steering_angle - target_steering2 pC6b (1, 0)| ≤ 3 := by
    rw [hb, show pC6b.steering_angle = 3 from rfl, sub_zero]
    rw [abs_of_nonneg (by norm_num : (0 : ℝ) ≤ 3)]
  have hc : target_steering2 (⟨0, 0, 0, 40, 0, 1, 0, false⟩ : Params) (1, 0)
      = 0 := target_steering2_east _ rfl rfl rfl
  have h40 : (32.997 : ℝ) ≤
      |(⟨0, 0, 0, 40, 0, 1, 0, false⟩ : Params).steering_angle -
        target_steering2 (⟨0, 0, 0, 40, 0, 1, 0, false⟩ : Params) (1, 0)| := by
    rw [hc, show (⟨0, 0, 0, 40, 0, 1, 0, false⟩ : Params).steering_angle = 40
      from rfl, sub_zero]
    rw [abs_of_nonneg (by norm_num : (0 : ℝ) ≤ 40)]
    norm_num
  exact ⟨⟨h3, c6_steering_amended.2.2.2.1 pC6b (1, 0) h3⟩, h40,
    c6_steering_amended.2.2.2.2.2.2 _ (1, 0) h40⟩



/-- C9 (corrected).  In carthing.py a mapping missing one of the six keys
read before `score_center`'s division (`x`, `y`, `track_width`, `heading`,
`steering_angle`, `speed`) fails fast with Python's builtin `KeyError`
naming a missing key (there is no `MissingFieldError` or
`InvalidInputError` in the code); with those six present and
`track_width` nonzero, a missing `progress` fails with
`KeyError("progress")`; but with `track_width = 0` the
`ZeroDivisionError` of `score_center` fires before `progress` is ever
read, whether or not `progress` is present.  No default is ever
substituted, and keys outside the required set never influence the
result.  In carthing2.py the `is_offtrack` key is itself required (it is
read first), and when it is present and truthy the function returns
`1e-3` without reading any other key, so a mapping missing `x` does not
fail there. -/
theorem c9_missing_keys_amended :
    (∀ (last_progress : ℝ) (d : Dict), (∃ k ∈ preCenterKeys, d k = none) →
      ∃ k ∈ preCenterKeys, d k = none ∧
        reward_function_dict last_progress d = .error (.keyError k)) ∧
    (∀ (last_progress : ℝ) (d : Dict) (v : PyVal),
      (∀ k ∈ preCenterKeys, ∃ u, d k = some u) →
      d "track_width" = some v → asNum v ≠ 0 → d "progress" = none →
      reward_function_dict last_progress d = .error (.keyError "progress")) ∧
    (∀ (last_progress : ℝ) (d : Dict) (v : PyVal),
      (∀ k ∈ preCenterKeys, ∃ u, d k = some u) →
      d "track_width" = some v → asNum v = 0 →
      reward_function_dict last_progress d = .error .zeroDivisionError) ∧
    (∀ (last_progress : ℝ) (d1 d2 : Dict), (∀ k ∈ reqKeys, d1 k = d2 k) →
      reward_function_dict last_progress d1 =
        reward_function_dict last_progress d2) ∧
    (∀ d : Dict, d "is_offtrack" = none →
      reward_function2_dict d = .error (.keyError "is_offtrack")) ∧
    ∀ d : Dict, d "is_offtrack" = some (.boolean true) →
      reward_function2_dict d = .ok 1e-3 := by
  refine ⟨?_, ?_, ?_, ?_, ?_, ?_⟩
  · intro last_progress d hmiss
    obtain ⟨k0, hk0, hnone⟩ := hmiss
    rcases h1 : d "x" with _ | v1
    · exact ⟨"x", by simp [preCenterKeys], h1,
        by simp [reward_function_dict, getNum, h1]⟩
    rcases h2 : d "y" with _ | v2
    · exact ⟨"y", by simp [preCenterKeys], h2,
        by simp [reward_function_dict, getNum, h1, h2]⟩
    rcases h3 : d "track_width" with _ | v3
    · exact ⟨"track_width", by simp [preCenterKeys], h3,
        by simp [reward_function_dict, getNum, h1, h2, h3]⟩
    rcases h4 : d "heading" with _ | v4
    · exact ⟨"heading", by simp [preCenterKeys], h4,
        by simp [reward_function_dict, getNum, h1, h2, h3, h4]⟩
    rcases h5 : d "steering_angle" with _ | v5
    · exact ⟨"steering_angle", by simp [preCenterKeys], h5,
        by simp [reward_function_dict, getNum, h1, h2, h3, h4, h5]⟩
    rcases h6 : d "speed" with _ | v6
    · exact ⟨"speed", by simp [preCenterKeys], h6,
        by simp [reward_function_dict, getNum, h1, h2, h3, h4, h5, h6]⟩
    exfalso
    simp only [preCenterKeys, List.mem_cons, List.not_mem_nil, or_false] at hk0
    rcases hk0 with rfl | rfl | rfl | rfl | rfl | rfl
    · rw [h1] at hnone
      exact Option.noConfusion hnone
    · rw [h2] at hnone
      exact Option.noConfusion hnone
    · rw [h3] at hnone
      exact Option.noConfusion hnone
    · rw [h4] at hnone
      exact Option.noConfusion hnone
    · rw [h5] at hnone
      exact Option.noConfusion hnone
    · rw [h6] at hnone
      exact Option.noConfusion hnone
  · intro last_progress d v hpre htw hvne hprog
    obtain ⟨v1, h1⟩ := hpre "x" (by simp [preCenterKeys])
    obtain ⟨v2, h2⟩ := hpre "y" (by simp [preCenterKeys])
    obtain ⟨v4, h4⟩ := hpre "heading" (by simp [preCenterKeys])
    obtain ⟨v5, h5⟩ := hpre "steering_angle" (by simp [preCenterKeys])
    obtain ⟨v6, h6⟩ := hpre "speed" (by simp [preCenterKeys])
    simp only [reward_function_dict, getNum, h1, h2, htw, h4, h5, h6, hprog]
    have hP : (⟨asNum v1, asNum v2, asNum v4, asNum v5, asNum v6, asNum v, 0,
        false⟩ : Params).track_width ≠ 0 := hvne
    rw [score_center_some _ _ hP]
  · intro last_progress d v hpre htw hv0
    obtain ⟨v1, h1⟩ := hpre "x" (by simp [preCenterKeys])
    obtain ⟨v2, h2⟩ := hpre "y" (by simp [preCenterKeys])
    obtain ⟨v4, h4⟩ := hpre "heading" (by simp [preCenterKeys])
    obtain ⟨v5, h5⟩ := hpre "steering_angle" (by simp [preCenterKeys])
    obtain ⟨v6, h6⟩ := hpre "speed" (by simp [preCenterKeys])
    simp only [reward_function_dict, getNum, h1, h2, htw, h4, h5, h6]
    have hP : (⟨asNum v1, asNum v2, asNum v4, asNum v5, asNum v6, asNum v, 0,
        false⟩ : Params).track_width = 0 := hv0
    rw [score_center_none _ _ hP]
  · intro last_progress d1 d2 hagree
    have hx := hagree "x" (by simp [reqKeys])
    have hy := hagree "y" (by simp [reqKeys])
    have htw := hagree "track_width" (by simp [reqKeys])
    have hh := hagree "heading" (by simp [reqKeys])
    have hsa := hagree "steering_angle" (by simp [reqKeys])
    have hsp := hagree "speed" (by simp [reqKeys])
    have hp := hagree "progress" (by simp [reqKeys])
    simp only [reward_function_dict, getNum, hx, hy, htw, hh, hsa, hsp, hp]
  · intro d h
    simp [reward_function2_dict, getVal, h]
  · intro d h
    simp [reward_function2_dict, getVal, h, truthy]

/-- C9 counterexample: a mapping that contains only a truthy `is_offtrack`
misses the required key `x`, yet carthing2.py's reward function succeeds
and returns `1e-3` instead of failing fast with a named error; and a
mapping with `track_width = 0` that misses `progress` makes carthing.py
raise `ZeroDivisionError`, not an error naming the missing key. -/
theorem c9_missing_keys_cex :
    (dOff "x" = none ∧ reward_function2_dict dOff = .ok 1e-3) ∧
    dTw0 "progress" = none ∧
    reward_function_dict 0 dTw0 = .error .zeroDivisionError := by
  refine ⟨⟨by simp [dOff], by simp [reward_function2_dict, getVal, dOff, truthy]⟩,
    by simp [dTw0], ?_⟩
  have e1 : dTw0 "x" = some (.num 0) := by simp [dTw0]
  have e2 : dTw0 "y" = some (.num 0) := by simp [dTw0]
  have e3 : dTw0 "track_width" = some (.num 0) := by simp [dTw0]
  have e4 : dTw0 "heading" = some (.num 0) := by simp [dTw0]
  have e5 : dTw0 "steering_angle" = some (.num 0) := by simp [dTw0]
  have e6 : dTw0 "speed" = some (.num 0) := by simp [dTw0]
  simp only [reward_function_dict, getNum, asNum, e1, e2, e3, e4, e5, e6]
  have hP : ((⟨0, 0, 0, 0, 0, 0, 0, false⟩ : Params)).track_width = 0 := rfl
  rw [score_center_none _ _ hP]

/-- C9 witness: the pre-division missing-key conjunct on the empty mapping,
the missing-progress conjunct on `dNoProg`, the zero-division conjunct on
`dTw0`, and the off-track bypass on `dOff`. -/
theorem c9_missing_keys_amended_witness :
    ((∃ k ∈ preCenterKeys, dNone k = none) ∧
      ∃ k ∈ preCenterKeys, dNone k = none ∧
        reward_function_dict 0 dNone = .error (.keyError k)) ∧
    ((∀ k ∈ preCenterKeys, ∃ u, dNoProg k = some u) ∧
      dNoProg "track_width" = some (.num 1) ∧ asNum (.num 1) ≠ 0 ∧
      dNoProg "progress" = none ∧
      reward_function_dict 0 dNoProg = .error (.keyError "progress")) ∧
    ((∀ k ∈ preCenterKeys, ∃ u, dTw0 k = some u) ∧
      dTw0 "track_width" = some (.num 0) ∧ asNum (.num 0) = 0 ∧
      reward_function_dict 0 dTw0 = .error .zeroDivisionError) ∧
    dOff "is_offtrack" = some (.boolean true) ∧
    reward_function2_dict dOff = .ok 1e-3 := by
  have hpre1 : ∀ k ∈ preCenterKeys, ∃ u, dNoProg k = some u := by
    intro k hk
    simp only [preCenterKeys, List.mem_cons, List.not_mem_nil, or_false] at hk
    rcases hk with rfl | rfl | rfl | rfl | rfl | rfl
    · exact ⟨.num 0, by simp [dNoProg]⟩
    · exact ⟨.num 0, by simp [dNoProg]⟩
    · exact ⟨.num 1, by simp [dNoProg]⟩
    · exact ⟨.num 0, by simp [dNoProg]⟩
    · exact ⟨.num 0, by simp [dNoProg]⟩
    · exact ⟨.num 0, by simp [dNoProg]⟩
  have hpre0 : ∀ k ∈ preCenterKeys, ∃ u, dTw0 k = some u := by
    intro k hk
    simp only [preCenterKeys, List.mem_cons, List.not_mem_nil, or_false] at hk
    rcases hk with rfl | rfl | rfl | rfl | rfl | rfl
    · exact ⟨.num 0, by simp [dTw0]⟩
    · exact ⟨.num 0, by simp [dTw0]⟩
    · exact ⟨.num 0, by simp [dTw0]⟩
    · exact ⟨.num 0, by simp [dTw0]⟩
    · exact ⟨.num 0, by simp [dTw0]⟩
    · exact ⟨.num 0, by simp [dTw0]⟩
  refine ⟨⟨⟨"x", by simp [preCenterKeys], rfl⟩,
      c9_missing_keys_amended.1 0 dNone ⟨"x", by simp [preCenterKeys], rfl⟩⟩,
    ⟨hpre1, by simp [dNoProg], by simp [asNum], by simp [dNoProg],
      c9_missing_keys_amended.2.1 0 dNoProg (.num 1) hpre1 (by simp [dNoProg])
        (by simp [asNum]) (by simp [dNoProg])⟩,
    ⟨hpre0, by simp [dTw0], by simp [asNum],
      c9_missing_keys_amended.2.2.1 0 dTw0 (.num 0) hpre0 (by simp [dTw0])
        (by simp [asNum])⟩,
    by simp [dOff],
    c9_missing_keys_amended.2.2.2.2.2 dOff (by simp [dOff])⟩

/-- C5 witness: the empty-window conjunct on a one-point table and the
scanning conjunct on the 121-point carthing2 table. -/
theorem c5_draw_ray_spec_witness :
    (intFloorTenth ([(((0 : ℝ), (0 : ℝ)))] : List (ℝ × ℝ)).length ≤ 5 ∧
      (draw_ray pOff [(((0 : ℝ), (0 : ℝ)))] 1).1 =
        (get_distance_list (pOff.x, pOff.y) [(((0 : ℝ), (0 : ℝ)))]).2.2.1) ∧
    5 < intFloorTenth get_racing_track2.length ∧
    ((∃ j : ℕ, 5 ≤ j ∧ j < intFloorTenth get_racing_track2.length ∧
      pOff.track_width * 1 ≤
        (get_distance_list (pOff.x, pOff.y) get_racing_track2).1.getD
          (((get_distance_list (pOff.x, pOff.y) get_racing_track2).2.2.1 +
            (j : ℤ)) % (get_racing_track2.length : ℤ)).toNat 0 ∧
      (∀ j2 : ℕ, 5 ≤ j2 → j2 < j →
        (get_distance_list (pOff.x, pOff.y) get_racing_track2).1.getD
          (((get_distance_list (pOff.x, pOff.y) get_racing_track2).2.2.1 +
            (j2 : ℤ)) % (get_racing_track2.length : ℤ)).toNat 0 <
          pOff.track_width * 1) ∧
      (draw_ray pOff get_racing_track2 1).1 =
        ((get_distance_list (pOff.x, pOff.y) get_racing_track2).2.2.1 +
          (j : ℤ)) % (get_racing_track2.length : ℤ)) ∨
    ((∀ j : ℕ, 5 ≤ j → j < intFloorTenth get_racing_track2.length →
        (get_distance_list (pOff.x, pOff.y) get_racing_track2).1.getD
          (((get_distance_list (pOff.x, pOff.y) get_racing_track2).2.2.1 +
            (j : ℤ)) % (get_racing_track2.length : ℤ)).toNat 0 <
          pOff.track_width * 1) ∧
      (draw_ray pOff get_racing_track2 1).1 =
        ((get_distance_list (pOff.x, pOff.y) get_racing_track2).2.2.1 +
          ((intFloorTenth get_racing_track2.length - 1 : ℕ) : ℤ)) %
          (get_racing_track2.length : ℤ))) := by
  have hB : 5 < intFloorTenth get_racing_track2.length := by
    rw [intFloorTenth_eq, show get_racing_track2.length = 121 from rfl]
    norm_num
  have hsmall : intFloorTenth ([(((0 : ℝ), (0 : ℝ)))] : List (ℝ × ℝ)).length ≤ 5 := by
    rw [intFloorTenth_eq,
      show ([(((0 : ℝ), (0 : ℝ)))] : List (ℝ × ℝ)).length = 1 from rfl]
    norm_num
  exact ⟨⟨hsmall, (c5_draw_ray_spec pOff _ 1).2.1 hsmall⟩, hB,
    (c5_draw_ray_spec pOff get_racing_track2 1).2.2 hB⟩


end DeepRacer
